import Mathlib

/-!
Verification of the lock/unlock state machine, crash-time persistence,
debounced switch reader, display digit computation and operator command
handling of the timer-box control sketch
(src/lock_n_learn_timebox_arduino_code/lock_n_learn_timebox_arduino_code.ino).

The embedding is shallow: each C++ function of the sketch is translated to an
executable Lean definition over an explicit state record.  Machine integers
are modelled as Nat / Int with explicit reductions modulo 2^8 and 2^32 where
the C code narrows (EEPROM bytes, uint32 timestamps); C `int` / `long`
arithmetic is modelled on Int with truncating division (Int.tdiv / Int.tmod),
matching C semantics.  The EEPROM is a byte store modelled as a function from
addresses to bytes; EEPROM.read / EEPROM.write reduce values modulo 256 as
the uint8_t interface does.  The RTC driver is abstracted as the `now`
parameter (seconds, uint32), and DateTime(t).unixtime() is taken as the
identity on the stored 32-bit value, as the claims and the spec do.
-/

/-! ## EEPROM layout constants (sketch lines 25-27) -/

def lockStateAddress : Nat := 0

def remainingTimeAddress : Nat := 1

def lockTimeAddress : Nat := 2

/-! ## Byte-addressable EEPROM model (spec section 4.2) -/

/-- EEPROM.write: stores the low byte of the value at the address, as the
uint8_t argument of the Arduino EEPROM interface does. -/
def eepromWrite (e : Nat → Nat) (a v : Nat) : Nat → Nat :=
  fun x => if x = a then v % 256 else e x

/-- EEPROM.read: a read always yields a byte. -/
def eread (e : Nat → Nat) (a : Nat) : Nat := e a % 256

/-! ## Timestamp serialization (sketch lines 188-192 and 95-99) -/

/-- The four EEPROM.write calls of lockBox that split the 32-bit lock
timestamp into little-endian bytes at lockTimeAddress .. lockTimeAddress+3
(sketch lines 189-192). -/
def writeTimestamp (e : Nat → Nat) (t : Nat) : Nat → Nat :=
  eepromWrite
    (eepromWrite
      (eepromWrite
        (eepromWrite e lockTimeAddress (t &&& 255))
        (lockTimeAddress + 1) ((t >>> 8) &&& 255))
      (lockTimeAddress + 2) ((t >>> 16) &&& 255))
    (lockTimeAddress + 3) ((t >>> 24) &&& 255)

/-- The reassembly of the saved timestamp performed at boot
(sketch lines 95-99): the four bytes are or-ed back after shifting. -/
def readTimestamp (e : Nat → Nat) : Nat :=
  eread e lockTimeAddress |||
    (eread e (lockTimeAddress + 1)) <<< 8 |||
    (eread e (lockTimeAddress + 2)) <<< 16 |||
    (eread e (lockTimeAddress + 3)) <<< 24

/-! ## Bit-arithmetic helper lemmas -/

theorem and255_eq_mod (x : Nat) : x &&& 255 = x % 256 := by
  apply Nat.eq_of_testBit_eq
  intro i
  rw [show (256 : Nat) = 2 ^ 8 from rfl, Nat.testBit_and, Nat.testBit_mod_two_pow]
  rw [show (255 : Nat) = 2 ^ 8 - 1 from rfl, Nat.testBit_two_pow_sub_one]
  rw [Bool.and_comm]

theorem lor_shiftLeft_eq_add (a b k : Nat) (h : a < 2 ^ k) :
    a ||| b <<< k = a + b * 2 ^ k := by
  apply Nat.eq_of_testBit_eq
  intro i
  rw [Nat.testBit_lor, Nat.testBit_shiftLeft]
  rw [show a + b * 2 ^ k = 2 ^ k * b + a by ring]
  rw [Nat.testBit_mul_pow_two_add b h i]
  by_cases hik : i < k
  · simp [hik, Nat.not_le.mpr hik, ge_iff_le]
  · have hk : a.testBit i = false :=
      Nat.testBit_lt_two_pow
        (lt_of_lt_of_le h (Nat.pow_le_pow_right (by omega) (by omega)))
    simp [hik, hk, Nat.le_of_not_lt hik, ge_iff_le]

/-- Round-trip of the timestamp serialization: writing the four little-endian
bytes and reassembling them restores the original 32-bit value. -/
theorem readTimestamp_writeTimestamp (e : Nat → Nat) (t : Nat)
    (h : t < 4294967296) : readTimestamp (writeTimestamp e t) = t := by
  have hb : ∀ v : Nat, v &&& 255 < 256 := by
    intro v
    rw [and255_eq_mod]
    exact Nat.mod_lt _ (by omega)
  have e0 : eread (writeTimestamp e t) lockTimeAddress = t % 256 := by
    simp [eread, writeTimestamp, eepromWrite, lockTimeAddress, and255_eq_mod,
      Nat.mod_mod_of_dvd]
  have e1 : eread (writeTimestamp e t) (lockTimeAddress + 1) =
      (t >>> 8) &&& 255 := by
    simp [eread, writeTimestamp, eepromWrite, lockTimeAddress,
      Nat.mod_eq_of_lt (hb _)]
  have e2 : eread (writeTimestamp e t) (lockTimeAddress + 2) =
      (t >>> 16) &&& 255 := by
    simp [eread, writeTimestamp, eepromWrite, lockTimeAddress,
      Nat.mod_eq_of_lt (hb _)]
  have e3 : eread (writeTimestamp e t) (lockTimeAddress + 3) =
      (t >>> 24) &&& 255 := by
    simp [eread, writeTimestamp, eepromWrite, lockTimeAddress,
      Nat.mod_eq_of_lt (hb _)]
  rw [readTimestamp, e0, e1, e2, e3]
  rw [and255_eq_mod, and255_eq_mod, and255_eq_mod]
  rw [Nat.shiftRight_eq_div_pow, Nat.shiftRight_eq_div_pow,
    Nat.shiftRight_eq_div_pow]
  rw [lor_shiftLeft_eq_add (t % 256) (t / 2 ^ 8 % 256) 8 (by omega)]
  rw [lor_shiftLeft_eq_add (t % 256 + t / 2 ^ 8 % 256 * 2 ^ 8)
    (t / 2 ^ 16 % 256) 16 (by omega)]
  rw [lor_shiftLeft_eq_add
    (t % 256 + t / 2 ^ 8 % 256 * 2 ^ 8 + t / 2 ^ 16 % 256 * 2 ^ 16)
    (t / 2 ^ 24 % 256) 24 (by omega)]
  omega

/-- Claim C5: for every 32-bit value t, writing the lock timestamp t as four
little-endian bytes at consecutive storage addresses and then reading those
four bytes back and reassembling them yields exactly t. -/
theorem c5_timestamp_roundtrip (e : Nat → Nat) (t : Nat)
    (h : t < 4294967296) : readTimestamp (writeTimestamp e t) = t :=
  readTimestamp_writeTimestamp e t h

theorem c5_timestamp_roundtrip_witness :
    3735928559 < 4294967296 ∧
      readTimestamp (writeTimestamp (fun _ => 0) 3735928559) = 3735928559 :=
  ⟨by decide, c5_timestamp_roundtrip (fun _ => 0) 3735928559 (by decide)⟩

/-! ## Program state (sketch global variables, lines 37-44)

The record collects the sketch's mutable globals together with the EEPROM
contents and the servo position (the actuator angle last written). -/

@[ext]
structure BoxSt where
  lockTime : Int
  remainingTime : Int
  boxLocked : Bool
  switchState : Bool
  lastSwitchState : Bool
  lastDebounceTime : Nat
  servo : Nat
  eeprom : Nat → Nat

/-- defaultLockTime (sketch line 37). -/
def defaultLockTime : Int := 1

/-- debounceDelay in milliseconds (sketch line 44). -/
def debounceDelay : Nat := 1000

/-- lockBox (sketch lines 179-193): set boxLocked, drive the servo to the
lock position, persist the lock flag, and persist the current RTC reading
(a uint32, hence the reduction modulo 2^32) as four little-endian bytes.
Note that the remaining-time byte of the EEPROM is not touched here. -/
def lockBox (s : BoxSt) (now : Nat) : BoxSt :=
  { s with
    boxLocked := true
    servo := 90
    eeprom := writeTimestamp (eepromWrite s.eeprom lockStateAddress 1)
      (now % 4294967296) }

/-- unlockBox (sketch lines 196-201): clear boxLocked, drive the servo to the
unlock position, persist lock flag 0 and remaining time 0.  The in-memory
remainingTime variable is not assigned here. -/
def unlockBox (s : BoxSt) : BoxSt :=
  { s with
    boxLocked := false
    servo := 0
    eeprom := eepromWrite (eepromWrite s.eeprom lockStateAddress 0)
      remainingTimeAddress 0 }

/-- The minute countdown branch of loop (sketch lines 156-167), guarded by
boxLocked as in the surrounding code: decrement remainingTime, persist the
new value (narrowed to a byte by the uint8_t EEPROM interface, Int.emod
giving the C int-to-uint8 conversion), and unlock once the result is <= 0. -/
def minuteTick (s : BoxSt) : BoxSt :=
  if s.boxLocked then
    let r := s.remainingTime - 1
    let s1 := { s with
      remainingTime := r
      eeprom := eepromWrite s.eeprom remainingTimeAddress (r % 256).toNat }
    if r ≤ 0 then unlockBox s1 else s1
  else s

/-- Iterated minute ticks. -/
def tickIter : Nat → BoxSt → BoxSt
  | 0, s => s
  | n + 1, s => tickIter n (minuteTick s)

/-- The switch-debouncing head of loop (sketch lines 129-145) for one
iteration.  Inputs: the current millis() reading t, the raw lid-switch sample
(true = pressed, i.e. digitalRead LOW), and the current RTC reading used if
lockBox fires.  Returns the new state together with two event flags: whether
a debounced transition was accepted (switchState was assigned) and whether
the lock action (lockBox plus the remainingTime reload) ran. -/
def switchStep (s : BoxSt) (t : Nat) (raw : Bool) (now : Nat) :
    BoxSt × Bool × Bool :=
  let lastDeb := if raw != s.lastSwitchState then t else s.lastDebounceTime
  let s1 := { s with lastDebounceTime := lastDeb }
  if t - lastDeb > debounceDelay then
    if raw != s1.switchState then
      let s2 := { s1 with switchState := raw }
      if raw && !s2.boxLocked then
        let s3 := lockBox s2 now
        let s4 := { s3 with remainingTime := s3.lockTime }
        ({ s4 with lastSwitchState := raw }, true, true)
      else ({ s2 with lastSwitchState := raw }, true, false)
    else ({ s1 with lastSwitchState := raw }, false, false)
  else ({ s1 with lastSwitchState := raw }, false, false)

/-- Interpretation of a uint32 bit pattern as a C long (int32), as happens
when the unsigned 32-bit subtraction now - savedLockTime is stored into the
signed elapsedSeconds variable (sketch line 105). -/
def int32OfUInt32 (n : Nat) : Int :=
  if n % 4294967296 < 2147483648 then ((n % 4294967296 : Nat) : Int)
  else ((n % 4294967296 : Nat) : Int) - 4294967296

/-- The state-restoring part of setup (sketch lines 87-118): read the lock
flag and the remaining minutes from the EEPROM; if the flag is nonzero
(C++ bool conversion of the byte), reassemble the saved timestamp, compute
the elapsed seconds as the uint32 difference now - saved reinterpreted as a
long, subtract elapsed/60 (C truncating division) from the remaining time
when it is positive, and unlock when the result is <= 0; otherwise drive the
servo to the unlock position.  The debounce globals keep their initializers
(sketch lines 41-43). -/
def recoverOnBoot (e : Nat → Nat) (now : Nat) : BoxSt :=
  let locked := eread e lockStateAddress ≠ 0
  let s0 : BoxSt :=
    { lockTime := defaultLockTime
      remainingTime := (eread e remainingTimeAddress : Int)
      boxLocked := locked
      switchState := true
      lastSwitchState := false
      lastDebounceTime := 0
      servo := 0
      eeprom := e }
  if locked then
    let ts := readTimestamp e
    let elapsed : Int :=
      int32OfUInt32 (now % 4294967296 + 4294967296 - ts % 4294967296)
    let rem2 : Int :=
      if s0.remainingTime > 0 then s0.remainingTime - elapsed.tdiv 60
      else s0.remainingTime
    let s1 := { s0 with remainingTime := rem2 }
    if rem2 ≤ 0 then unlockBox s1 else s1
  else s0

/-- refreshDisplay tens digit (sketch line 205), C truncating division on
int. -/
def refreshTens (time : Int) : Int := time.tdiv 10

/-- refreshDisplay ones digit (sketch line 206), C truncating remainder on
int. -/
def refreshOnes (time : Int) : Int := time.tmod 10

/-- The fixed ten-entry seven-segment pattern table (sketch lines 48-59),
common-anode polarity: 0 drives a segment on. -/
def numbers : List (List Nat) :=
  [[0, 0, 0, 0, 0, 0, 1],
   [1, 0, 0, 1, 1, 1, 1],
   [0, 0, 1, 0, 0, 1, 0],
   [0, 0, 0, 0, 1, 1, 0],
   [1, 0, 0, 1, 1, 0, 0],
   [0, 1, 0, 0, 1, 0, 0],
   [0, 1, 0, 0, 0, 0, 0],
   [0, 0, 0, 1, 1, 1, 1],
   [0, 0, 0, 0, 0, 0, 0],
   [0, 0, 0, 0, 1, 0, 0]]

/-! ## Claim C3: unlockBox -/

/-- A concrete locked state with 5 minutes left in RAM, used to exhibit the
behaviour of unlockBox on the in-memory remainingTime variable. -/
def c3State : BoxSt :=
  { lockTime := 1
    remainingTime := 5
    boxLocked := true
    switchState := true
    lastSwitchState := true
    lastDebounceTime := 0
    servo := 90
    eeprom := fun _ => 0 }

/-- Counterexample to claim C3 as stated: unlockBox does not set the
in-memory remainingMinutes variable to 0 — from a locked state with
remainingTime = 5, the variable still holds 5 after unlockBox (only the
persisted copy is zeroed). -/
theorem c3_unlock_counterexample :
    (unlockBox c3State).remainingTime = 5 ∧ ((5 : Int) ≠ 0) := by
  constructor
  · rfl
  · decide

theorem unlockBox_remainingTime (s : BoxSt) :
    (unlockBox s).remainingTime = s.remainingTime := rfl

/-- Claim C3 (amended): unlock, callable from any state, sets locked=false,
drives the actuator to the unlock position, and persists locked=0 and
remaining=0; the in-memory remainingMinutes variable is left unchanged
(only its persisted copy is zeroed); the operation is idempotent (a second
call from the resulting state leaves the state unchanged). -/
theorem c3_unlock_amended (s : BoxSt) :
    (unlockBox s).boxLocked = false ∧
      (unlockBox s).servo = 0 ∧
      eread (unlockBox s).eeprom lockStateAddress = 0 ∧
      eread (unlockBox s).eeprom remainingTimeAddress = 0 ∧
      (unlockBox s).remainingTime = s.remainingTime ∧
      unlockBox (unlockBox s) = unlockBox s := by
  refine ⟨rfl, rfl, ?_, ?_, rfl, ?_⟩
  · simp [unlockBox, eread, eepromWrite, lockStateAddress, remainingTimeAddress]
  · simp [unlockBox, eread, eepromWrite, lockStateAddress, remainingTimeAddress]
  · unfold unlockBox
    ext x
    all_goals simp [eepromWrite]
    by_cases h1 : x = remainingTimeAddress <;> by_cases h0 : x = lockStateAddress <;>
      simp [h1, h0]

/-! ## Claim C4: the minute countdown -/

/-- A locked state with r minutes remaining, as produced by a lock event
(servo at the lock position, countdown about to run). -/
def c4Start (r : Nat) : BoxSt :=
  { lockTime := 1
    remainingTime := (r : Int)
    boxLocked := true
    switchState := true
    lastSwitchState := true
    lastDebounceTime := 0
    servo := 90
    eeprom := fun _ => 0 }

theorem minuteTick_locked (s : BoxSt) (h : s.boxLocked = true) :
    (minuteTick s).boxLocked = decide (1 < s.remainingTime) ∧
      (minuteTick s).remainingTime = s.remainingTime - 1 := by
  unfold minuteTick
  rw [h]
  simp only [if_true]
  by_cases hr : s.remainingTime - 1 ≤ 0
  · rw [if_pos hr]
    constructor
    · simp [unlockBox]
      omega
    · rfl
  · rw [if_neg hr]
    constructor
    · simp
      omega
    · rfl

theorem tickIter_char (i : Nat) : ∀ (k : Nat) (s : BoxSt),
    s.boxLocked = decide (0 < k) → s.remainingTime = (k : Int) → i ≤ k →
    (tickIter i s).boxLocked = decide (i < k) ∧
      (tickIter i s).remainingTime = (k : Int) - (i : Int) := by
  induction i with
  | zero =>
    intro k s hl hr _
    refine ⟨hl, ?_⟩
    show s.remainingTime = (k : Int) - ((0 : Nat) : Int)
    rw [hr]
    simp
  | succ n ih =>
    intro k s hl hr hik
    have hk : 1 ≤ k := by omega
    have hlt : s.boxLocked = true := by
      rw [hl]
      simp
      omega
    obtain ⟨hb, hv⟩ := minuteTick_locked s hlt
    have step : tickIter (n + 1) s = tickIter n (minuteTick s) := rfl
    rw [step]
    have hb' : (minuteTick s).boxLocked = decide (0 < k - 1) := by
      rw [hb, hr]
      rcases Nat.lt_or_ge 1 k with h | h
      · have e1 : (1 : Int) < (k : Int) := by exact_mod_cast h
        simp [e1]
        omega
      · have e0 : k = 1 := by omega
        subst e0
        simp
    have hv' : (minuteTick s).remainingTime = ((k - 1 : Nat) : Int) := by
      rw [hv, hr]
      omega
    obtain ⟨c1, c2⟩ := ih (k - 1) (minuteTick s) hb' hv' (by omega)
    constructor
    · rw [c1]
      rw [decide_eq_decide]
      omega
    · rw [c2]
      push_cast
      omega

/-- Counterexample to claim C4 as stated: the claimed range includes a
starting remainingMinutes of 0, but with remainingMinutes = 0 and
locked = true, applying the minute tick remainingMinutes = 0 times performs
no transition at all — the box is still locked, so the locked=false
transition does not occur exactly once. -/
theorem c4_tick_zero_counterexample :
    (tickIter 0 (c4Start 0)).boxLocked = true := rfl

/-- Claim C4 (amended): for every starting remainingMinutes in 1-99 with
locked=true, applying the minute tick (decrement, persist, unlock at <= 0)
i times for i <= remainingMinutes leaves the box locked exactly while
i < remainingMinutes (so the locked=false transition happens exactly once,
at the transition through 0), the remaining time after i ticks is
remainingMinutes - i, and remainingMinutes never goes below 0. -/
theorem c4_tick_countdown (r : Nat) (h1 : 1 ≤ r) (h2 : r ≤ 99) (i : Nat)
    (hi : i ≤ r) :
    (tickIter i (c4Start r)).boxLocked = decide (i < r) ∧
      (tickIter i (c4Start r)).remainingTime = (r : Int) - (i : Int) ∧
      0 ≤ (tickIter i (c4Start r)).remainingTime := by
  obtain ⟨a, b⟩ := tickIter_char i r (c4Start r) (by simp [c4Start]; omega) rfl hi
  refine ⟨a, b, ?_⟩
  rw [b]
  have : (i : Int) ≤ (r : Int) := by exact_mod_cast hi
  omega

theorem c4_tick_countdown_witness :
    ((tickIter 5 (c4Start 5)).boxLocked = decide (5 < 5) ∧
      (tickIter 5 (c4Start 5)).remainingTime = ((5 : Nat) : Int) - ((5 : Nat) : Int) ∧
      0 ≤ (tickIter 5 (c4Start 5)).remainingTime) ∧
    ((tickIter 2 (c4Start 5)).boxLocked = decide (2 < 5) ∧
      (tickIter 2 (c4Start 5)).remainingTime = ((5 : Nat) : Int) - ((2 : Nat) : Int) ∧
      0 ≤ (tickIter 2 (c4Start 5)).remainingTime) :=
  ⟨c4_tick_countdown 5 (by decide) (by decide) 5 (by decide),
   c4_tick_countdown 5 (by decide) (by decide) 2 (by decide)⟩

/-! ## Claim C2: elapsed-time recovery at boot -/

theorem int32OfUInt32_small (n : Nat) (h : n < 2147483648) :
    int32OfUInt32 n = (n : Int) := by
  unfold int32OfUInt32
  rw [Nat.mod_eq_of_lt (by omega)]
  simp [h]

theorem natCast_tdiv (m n : Nat) :
    ((m : Int)).tdiv ((n : Int)) = ((m / n : Nat) : Int) := rfl

/-- EEPROM contents as persisted by a lock event that was followed by minute
ticks: lock flag 1, remaining-minutes byte r, timestamp ts serialized at
lockTimeAddress. -/
def c2Storage (r ts : Nat) : Nat → Nat :=
  writeTimestamp
    (fun a => if a = lockStateAddress then 1
      else if a = remainingTimeAddress then r else 0) ts

/-- Claim C2: on boot with persisted locked, recovery computes the elapsed
seconds since the persisted lock timestamp, subtracts elapsed/60 (truncating
division) from the persisted remainingMinutes, unlocks if the result is
<= 0, and otherwise resumes locked with the adjusted remaining time.  Stated
for any persisted byte r and any clock reading now at or after ts with less
than 2^31 seconds elapsed (no uint32 wraparound of the difference). -/
theorem c2_recover_elapsed (r ts now : Nat) (hr : r ≤ 255)
    (hts : ts < 4294967296) (h1 : ts ≤ now) (h2 : now < 4294967296)
    (h3 : now - ts < 2147483648) :
    (recoverOnBoot (c2Storage r ts) now).boxLocked =
        decide (0 < (r : Int) - (((now - ts) / 60 : Nat) : Int)) ∧
      (0 < (r : Int) - (((now - ts) / 60 : Nat) : Int) →
        (recoverOnBoot (c2Storage r ts) now).remainingTime =
          (r : Int) - (((now - ts) / 60 : Nat) : Int)) := by
  have hb : ∀ v : Nat, v &&& 255 < 256 := by
    intro v
    rw [and255_eq_mod]
    exact Nat.mod_lt _ (by omega)
  have hl : eread (c2Storage r ts) lockStateAddress = 1 := by
    simp [c2Storage, writeTimestamp, eepromWrite, eread, lockStateAddress,
      lockTimeAddress]
  have hrm : eread (c2Storage r ts) remainingTimeAddress = r := by
    simp [c2Storage, writeTimestamp, eepromWrite, eread, remainingTimeAddress,
      lockStateAddress, lockTimeAddress]
    omega
  have hread : readTimestamp (c2Storage r ts) = ts := by
    unfold c2Storage
    exact readTimestamp_writeTimestamp _ ts hts
  have he : int32OfUInt32 (now % 4294967296 + 4294967296 -
      readTimestamp (c2Storage r ts) % 4294967296) = ((now - ts : Nat) : Int) := by
    rw [hread, Nat.mod_eq_of_lt h2, Nat.mod_eq_of_lt hts]
    have harg : now + 4294967296 - ts = (now - ts) + 4294967296 := by omega
    rw [harg]
    unfold int32OfUInt32
    rw [Nat.add_mod_right, Nat.mod_eq_of_lt (by omega)]
    simp [h3]
  have htd : ((now - ts : Nat) : Int).tdiv 60 = (((now - ts) / 60 : Nat) : Int) := by
    rw [show (60 : Int) = ((60 : Nat) : Int) from rfl]
    exact natCast_tdiv (now - ts) 60
  unfold recoverOnBoot
  rw [hl]
  simp only [ne_eq, Nat.one_ne_zero, not_false_eq_true, if_true, hrm, he, htd]
  split_ifs with hgt hle hle
  · refine ⟨?_, fun hc => ?_⟩
    · have hna : ¬ (0 < (r : Int) - (((now - ts) / 60 : Nat) : Int)) := by
        omega
      simp [unlockBox, hna]
      omega
    · exfalso
      omega
  · refine ⟨?_, fun _ => rfl⟩
    have hpa : 0 < (r : Int) - (((now - ts) / 60 : Nat) : Int) := by omega
    simp [hpa]
    omega
  · refine ⟨?_, fun hc => ?_⟩
    · have hna : ¬ (0 < (r : Int) - (((now - ts) / 60 : Nat) : Int)) := by
        omega
      simp [unlockBox, hna]
      omega
    · exfalso
      omega
  · exfalso
    omega

/-- Witness: the spec scenario — powered off locked with 10 minutes left and
timestamp ts, powered on 420 seconds later: still locked with 3 minutes. -/
theorem c2_recover_elapsed_witness :
    ((recoverOnBoot (c2Storage 10 1000000000) 1000000420).boxLocked =
        decide (0 < (10 : Int) -
          (((1000000420 - 1000000000) / 60 : Nat) : Int)) ∧
      (0 < (10 : Int) - (((1000000420 - 1000000000) / 60 : Nat) : Int) →
        (recoverOnBoot (c2Storage 10 1000000000) 1000000420).remainingTime =
          (10 : Int) - (((1000000420 - 1000000000) / 60 : Nat) : Int))) ∧
      (10 : Int) - (((1000000420 - 1000000000) / 60 : Nat) : Int) = 3 :=
  ⟨c2_recover_elapsed 10 1000000000 1000000420 (by decide) (by decide)
      (by decide) (by decide) (by decide),
    by decide⟩

/-! ## Claim C7: boot fallback on erased storage -/

/-- Erased EEPROM: every byte reads 0xFF. -/
def erasedStorage : Nat → Nat := fun _ => 255

/-- Claim C7: booting over erased storage (every byte 0xFF) ends in the
UNLOCKED state.  The C++ byte-to-bool conversion makes the 0xFF lock flag
read as locked and the remaining byte as 255, but the reassembled 0xFFFFFFFF
timestamp makes the elapsed-seconds computation wrap to now + 1, whose
minute count exceeds 255 for any clock reading from 1970-01-01T04:15 on, so
recovery immediately unlocks.  Stated for any such realistic RTC reading
below the int32 range bound. -/
theorem c7_erased_storage_unlocks (now : Nat) (hlo : 15299 ≤ now)
    (hhi : now ≤ 2147483646) :
    (recoverOnBoot erasedStorage now).boxLocked = false := by
  have hrt : readTimestamp erasedStorage = 4294967295 := rfl
  have he : int32OfUInt32 (now % 4294967296 + 4294967296 -
      readTimestamp erasedStorage % 4294967296) = ((now + 1 : Nat) : Int) := by
    rw [hrt, Nat.mod_eq_of_lt (by omega : now < 4294967296),
      Nat.mod_eq_of_lt (by omega : (4294967295 : Nat) < 4294967296)]
    rw [show now + 4294967296 - 4294967295 = now + 1 by omega]
    unfold int32OfUInt32
    rw [Nat.mod_eq_of_lt (by omega)]
    simp only [if_pos (by omega : now + 1 < 2147483648)]
  have htd : ((now + 1 : Nat) : Int).tdiv 60 = (((now + 1) / 60 : Nat) : Int) := by
    rw [show (60 : Int) = ((60 : Nat) : Int) from rfl]
    exact natCast_tdiv (now + 1) 60
  have hfl : eread erasedStorage lockStateAddress = 255 := rfl
  have hrm : eread erasedStorage remainingTimeAddress = 255 := rfl
  simp only [recoverOnBoot]
  rw [hfl, hrm]
  simp only [ne_eq, OfNat.ofNat_ne_zero, not_false_eq_true, if_true, he, htd]
  have hdiv : 255 ≤ (now + 1) / 60 := by omega
  split_ifs with hgt hle hle
  · simp [unlockBox]
  · exfalso
    omega
  · simp [unlockBox]
  · exfalso
    norm_num at hgt

theorem c7_erased_storage_unlocks_witness :
    15299 ≤ 1750000000 ∧
      (recoverOnBoot erasedStorage 1750000000).boxLocked = false :=
  ⟨by decide, c7_erased_storage_unlocks 1750000000 (by decide) (by decide)⟩

/-! ## Claim C8: display digit computation -/

/-- Counterexample to claim C8 as stated: refreshDisplay performs no
clamping of its argument to 0-99 — passed the value 200 (as happens when the
loop displays a remainingTime of 200, reachable by booting with a persisted
remaining-minutes byte of 200 and the lock flag set and a recent timestamp),
the tens digit computes to 20 and the lookup into the ten-entry pattern
table is out of bounds. -/
theorem c8_no_clamp_counterexample :
    refreshTens 200 = 20 ∧
      (numbers[(refreshTens 200).toNat]?).isSome = false := by
  constructor
  · rfl
  · rfl

/-- Claim C8 (amended): refreshDisplay computes tens = value/10 and
ones = value%10 with no clamping; for every value in the 0-99 range (which
is every value the loop passes while the persisted remaining-minutes byte
stays in range) both digits lie in 0-9 and every lookup into the ten-entry
seven-segment pattern table is in bounds. -/
theorem c8_display_digits_in_bounds (v : Int) (h0 : 0 ≤ v) (h1 : v ≤ 99) :
    0 ≤ refreshTens v ∧ refreshTens v < 10 ∧
      0 ≤ refreshOnes v ∧ refreshOnes v < 10 ∧
      (numbers[(refreshTens v).toNat]?).isSome = true ∧
      (numbers[(refreshOnes v).toNat]?).isSome = true := by
  obtain ⟨n, rfl⟩ := Int.eq_ofNat_of_zero_le h0
  have hn : n ≤ 99 := by exact_mod_cast h1
  have ht : refreshTens ((n : Nat) : Int) = ((n / 10 : Nat) : Int) := rfl
  have ho : refreshOnes ((n : Nat) : Int) = ((n % 10 : Nat) : Int) := rfl
  rw [ht, ho]
  have hlen : numbers.length = 10 := rfl
  have h10 : n / 10 < 10 := by omega
  have hm10 : n % 10 < 10 := by omega
  refine ⟨by omega, by omega, by omega, by omega, ?_, ?_⟩
  · have hidx : ((((n / 10 : Nat) : Int)).toNat) < numbers.length := by
      rw [Int.toNat_natCast, hlen]
      exact h10
    rw [List.getElem?_eq_getElem hidx]
    rfl
  · have hidx : ((((n % 10 : Nat) : Int)).toNat) < numbers.length := by
      rw [Int.toNat_natCast, hlen]
      exact hm10
    rw [List.getElem?_eq_getElem hidx]
    rfl

theorem c8_display_digits_in_bounds_witness :
    0 ≤ refreshTens 42 ∧ refreshTens 42 < 10 ∧
      0 ≤ refreshOnes 42 ∧ refreshOnes 42 < 10 ∧
      (numbers[(refreshTens 42).toNat]?).isSome = true ∧
      (numbers[(refreshOnes 42).toNat]?).isSome = true :=
  c8_display_digits_in_bounds 42 (by decide) (by decide)

/-! ## Claim C1: the lock event -/

/-- The state of a freshly booted, unlocked box whose EEPROM was zeroed by a
previous unlock: lock flag 0, remaining-minutes byte 0.  The previous raw
switch sample was closed (so the debounce timer is not reset at the next
sample) and the debounced switchState is open, about to accept the closed
value. -/
def c1Start : BoxSt :=
  { lockTime := 1
    remainingTime := 0
    boxLocked := false
    switchState := false
    lastSwitchState := true
    lastDebounceTime := 0
    servo := 0
    eeprom := fun _ => 0 }

/-- The state after the debounced close is accepted at millis = 2000 with
RTC reading 1750000000: lockBox ran, then remainingTime was reloaded. -/
def c1After : BoxSt := (switchStep c1Start 2000 true 1750000000).1

/-- Claim C1 demonstration (code bug): when the debounced lid switch
transition to closed is accepted in the unlocked state, the code sets
boxLocked, reloads remainingTime from the configured lock time, drives the
servo to the lock position, and persists the lock flag and the timestamp —
but it never persists the remaining minutes: the EEPROM remaining-minutes
byte keeps its stale value 0, so rebooting right after the lock (RTC ten
seconds later) immediately unlocks the box, contradicting the claimed
persistence of all three of locked, remainingMinutes and timestamp. -/
theorem c1_lock_event_bug :
    c1After.boxLocked = true ∧
      c1After.remainingTime = c1After.lockTime ∧
      c1After.servo = 90 ∧
      eread c1After.eeprom lockStateAddress = 1 ∧
      readTimestamp c1After.eeprom = 1750000000 ∧
      eread c1After.eeprom remainingTimeAddress = 0 ∧
      (recoverOnBoot c1After.eeprom 1750000010).boxLocked = false := by
  refine ⟨rfl, rfl, rfl, rfl, by decide, rfl, by decide⟩

/-! ## Claims C6 and C10: the debounced switch reader

A run feeds the switch-handling head of loop a trace of (millis, raw)
samples and counts the accepted debounced transitions and the lock
invocations. -/

/-- Fold switchStep over a sample trace, counting (accepted transitions,
lock invocations). -/
def runCounts (s : BoxSt) (now : Nat) : List (Nat × Bool) → Nat × Nat
  | [] => (0, 0)
  | (t, raw) :: rest =>
    ((if (switchStep s t raw now).2.1 then 1 else 0) +
        (runCounts (switchStep s t raw now).1 now rest).1,
      (if (switchStep s t raw now).2.2 then 1 else 0) +
        (runCounts (switchStep s t raw now).1 now rest).2)

/-- Accepted debounced transitions over a trace. -/
def acceptCount (s : BoxSt) (now : Nat) (tr : List (Nat × Bool)) : Nat :=
  (runCounts s now tr).1

/-- Lock invocations over a trace. -/
def lockCount (s : BoxSt) (now : Nat) (tr : List (Nat × Bool)) : Nat :=
  (runCounts s now tr).2

/-- The state after running a trace. -/
def runState (s : BoxSt) (now : Nat) : List (Nat × Bool) → BoxSt
  | [] => s
  | (t, raw) :: rest => runState (switchStep s t raw now).1 now rest

/-- The raw value toggles faster than the debounce delay: at every sample,
either the raw value just changed (which resets the debounce timer) or the
sample still lies within the delay since the last recorded change. -/
def togglesFast (s : BoxSt) (now : Nat) : List (Nat × Bool) → Bool
  | [] => true
  | (t, raw) :: rest =>
    ((raw != s.lastSwitchState) ||
        decide (t - s.lastDebounceTime ≤ debounceDelay)) &&
      togglesFast (switchStep s t raw now).1 now rest

/-- Sample times are nondecreasing, starting no earlier than t0. -/
def timesMono : Nat → List (Nat × Bool) → Bool
  | _, [] => true
  | t0, (t, _) :: rest => decide (t0 ≤ t) && timesMono t rest

/-- Every raw sample of the trace equals v. -/
def allRaw (v : Bool) (tr : List (Nat × Bool)) : Bool :=
  tr.all fun p => p.2 == v

/-- Some sample arrives strictly more than the debounce delay after t0. -/
def anyLate (t0 : Nat) (tr : List (Nat × Bool)) : Bool :=
  tr.any fun p => decide (debounceDelay + t0 < p.1)

theorem switchStep_noToggle_noAccept (s : BoxSt) (t now : Nat) (raw : Bool)
    (h1 : raw = s.lastSwitchState)
    (h2 : ¬ (t - s.lastDebounceTime > debounceDelay)) :
    switchStep s t raw now = (s, false, false) := by
  subst h1
  unfold switchStep
  simp [h2]

theorem switchStep_toggle (s : BoxSt) (t now : Nat) (raw : Bool)
    (h1 : (raw != s.lastSwitchState) = true) :
    switchStep s t raw now =
      ({ s with lastDebounceTime := t, lastSwitchState := raw }, false, false) := by
  unfold switchStep
  simp [h1]

theorem switchStep_sameSw (s : BoxSt) (t now : Nat) (raw : Bool)
    (h : raw = s.switchState) :
    (switchStep s t raw now).2.1 = false ∧
      (switchStep s t raw now).2.2 = false ∧
      (switchStep s t raw now).1.switchState = s.switchState ∧
      (switchStep s t raw now).1.boxLocked = s.boxLocked := by
  subst h
  unfold switchStep
  split_ifs <;> simp_all

theorem switchStep_accept (s : BoxSt) (t now : Nat) (raw : Bool)
    (h1 : raw = s.lastSwitchState) (h2 : t - s.lastDebounceTime > debounceDelay)
    (h3 : (raw != s.switchState) = true) :
    (switchStep s t raw now).2.1 = true ∧
      (switchStep s t raw now).1.switchState = raw := by
  subst h1
  unfold switchStep
  simp [h2, h3]
  split_ifs <;> simp [lockBox]

theorem runCounts_stable (tr : List (Nat × Bool)) :
    ∀ (s : BoxSt) (now : Nat) (v : Bool), s.switchState = v →
      allRaw v tr = true →
      runCounts s now tr = (0, 0) ∧
        (runState s now tr).boxLocked = s.boxLocked := by
  induction tr with
  | nil =>
    intro s now v _ _
    exact ⟨rfl, rfl⟩
  | cons p rest ih =>
    obtain ⟨t, raw⟩ := p
    intro s now v h1 h2
    rw [allRaw, List.all_cons] at h2
    rw [Bool.and_eq_true] at h2
    have hv : raw = v := by
      have := h2.1
      simp at this
      exact this
    have hsw : raw = s.switchState := by rw [hv, h1]
    obtain ⟨f1, f2, f3, f4⟩ := switchStep_sameSw s t now raw hsw
    have hrest := ih (switchStep s t raw now).1 now v (by rw [f3, h1]) h2.2
    constructor
    · simp only [runCounts, f1, f2]
      rw [hrest.1]
      simp
    · simp only [runState]
      rw [hrest.2, f4]

theorem runCounts_togglesFast (tr : List (Nat × Bool)) :
    ∀ (s : BoxSt) (now : Nat), togglesFast s now tr = true →
      runCounts s now tr = (0, 0) := by
  induction tr with
  | nil =>
    intro s now _
    rfl
  | cons p rest ih =>
    obtain ⟨t, raw⟩ := p
    intro s now h
    rw [togglesFast, Bool.and_eq_true] at h
    obtain ⟨hc, hrest⟩ := h
    cases hB : (raw != s.lastSwitchState) with
    | true =>
      have hstep := switchStep_toggle s t now raw hB
      simp only [runCounts, hstep]
      have := ih (switchStep s t raw now).1 now hrest
      rw [hstep] at this
      simp only at this
      rw [this]
      simp
    | false =>
      have heq : raw = s.lastSwitchState := by
        simpa using hB
      have hle : t - s.lastDebounceTime ≤ debounceDelay := by
        rw [hB] at hc
        simpa using hc
      have hstep := switchStep_noToggle_noAccept s t now raw heq (by omega)
      simp only [runCounts, hstep]
      have := ih (switchStep s t raw now).1 now hrest
      rw [hstep] at this
      simp only at this
      rw [this]
      simp

theorem timesMono_anti (tr : List (Nat × Bool)) :
    ∀ t0 t1 : Nat, t1 ≤ t0 → timesMono t0 tr = true → timesMono t1 tr = true := by
  induction tr with
  | nil =>
    intro t0 t1 _ _
    rfl
  | cons p rest _ =>
    obtain ⟨t, raw⟩ := p
    intro t0 t1 hle h
    rw [timesMono, Bool.and_eq_true] at h ⊢
    refine ⟨?_, h.2⟩
    have := h.1
    simp at this ⊢
    omega

theorem runCounts_stableOne (tr : List (Nat × Bool)) :
    ∀ (s : BoxSt) (now : Nat) (v : Bool),
      s.lastSwitchState = v → s.switchState ≠ v → allRaw v tr = true →
      timesMono s.lastDebounceTime tr = true →
      anyLate s.lastDebounceTime tr = true →
      (runCounts s now tr).1 = 1 := by
  induction tr with
  | nil =>
    intro s now v _ _ _ _ h5
    simp [anyLate] at h5
  | cons p rest ih =>
    obtain ⟨t, raw⟩ := p
    intro s now v h1 h2 h3 h4 h5
    rw [allRaw, List.all_cons, Bool.and_eq_true] at h3
    have hv : raw = v := by
      have := h3.1
      simp at this
      exact this
    have hlast : raw = s.lastSwitchState := by rw [hv, h1]
    rw [timesMono, Bool.and_eq_true] at h4
    have hle : s.lastDebounceTime ≤ t := by
      have := h4.1
      simpa using this
    by_cases hacc : t - s.lastDebounceTime > debounceDelay
    · have hne : (raw != s.switchState) = true := by
        rw [hv]
        rw [bne_iff_ne]
        exact fun hc => h2 hc.symm
      obtain ⟨f1, fsw⟩ := switchStep_accept s t now raw hlast hacc hne
      have hrest := (runCounts_stable rest (switchStep s t raw now).1 now v
        (by rw [fsw, hv]) h3.2).1
      simp only [runCounts, f1]
      rw [hrest]
      simp
    · have hstep := switchStep_noToggle_noAccept s t now raw hlast (by omega)
      have hlate : anyLate s.lastDebounceTime rest = true := by
        rw [anyLate, List.any_cons, Bool.or_eq_true] at h5
        rcases h5 with h5 | h5
        · exfalso
          simp at h5
          unfold debounceDelay at hacc h5
          omega
        · exact h5
      have hmono : timesMono s.lastDebounceTime rest = true :=
        timesMono_anti rest t s.lastDebounceTime hle h4.2
      have := ih s now v h1 h2 h3.2 hmono hlate
      simp [runCounts, hstep, this]

/-- The debounce state just after the lid switch was sampled closed at
millis 0 (debounce timer recorded at 0, previous raw sample closed) while
the debounced switchState still reads open. -/
def c6Boundary : BoxSt :=
  { lockTime := 1
    remainingTime := 0
    boxLocked := false
    switchState := false
    lastSwitchState := true
    lastDebounceTime := 0
    servo := 0
    eeprom := fun _ => 0 }

/-- Counterexample to claim C6 as stated: a raw value held stable for
exactly the 1000 ms debounce delay ("at least the delay") and sampled at
that boundary produces no accepted transition, because the code requires
millis() - lastDebounceTime to strictly exceed the delay.  The raw closed
value became stable at millis 0 and the loop samples it at millis 1000:
zero transitions are accepted, not exactly one. -/
theorem c6_exact_delay_counterexample :
    acceptCount c6Boundary 0 [(1000, true)] = 0 := by decide

/-- Claim C6 (amended): (a) a raw value that toggles faster than the
debounce delay (at every sample it either just changed or is still within
the delay of the last change) never produces an accepted transition;
(b) a value held stable and sampled strictly beyond the delay after the
last change produces exactly one accepted transition; (c) an accepted close
is edge-triggered: while the debounced state already reads closed and the
raw value stays closed, the lock action never fires again. -/
theorem c6_debounce_properties :
    (∀ (s : BoxSt) (now : Nat) (tr : List (Nat × Bool)),
        togglesFast s now tr = true → acceptCount s now tr = 0) ∧
      (∀ (s : BoxSt) (now : Nat) (v : Bool) (tr : List (Nat × Bool)),
        s.lastSwitchState = v → s.switchState ≠ v → allRaw v tr = true →
        timesMono s.lastDebounceTime tr = true →
        anyLate s.lastDebounceTime tr = true → acceptCount s now tr = 1) ∧
      (∀ (s : BoxSt) (now : Nat) (tr : List (Nat × Bool)),
        s.switchState = true → allRaw true tr = true →
        lockCount s now tr = 0) :=
  ⟨fun s now tr h => by
      rw [acceptCount, runCounts_togglesFast tr s now h],
    fun s now v tr h1 h2 h3 h4 h5 =>
      runCounts_stableOne tr s now v h1 h2 h3 h4 h5,
    fun s now tr h1 h2 => by
      rw [lockCount, (runCounts_stable tr s now true h1 h2).1]⟩

theorem c6_debounce_properties_witness :
    acceptCount c1Start 0 [(300, true), (600, false), (900, true)] = 0 ∧
      acceptCount c6Boundary 0 [(600, true), (1200, true)] = 1 ∧
      lockCount (c4Start 5) 0 [(1500, true), (3000, true)] = 0 :=
  ⟨c6_debounce_properties.1 c1Start 0 _ (by decide),
    c6_debounce_properties.2.1 c6Boundary 0 true _ (by decide) (by decide)
      (by decide) (by decide) (by decide),
    c6_debounce_properties.2.2 (c4Start 5) 0 _ (by decide) (by decide)⟩

theorem recoverOnBoot_switchState (e : Nat → Nat) (now : Nat) :
    (recoverOnBoot e now).switchState = true := by
  simp only [recoverOnBoot]
  split_ifs <;> simp [unlockBox]

/-- Claim C10: because setup leaves the debounced switchState initialized to
closed (sketch line 41), an execution whose raw lid-switch samples read
closed from boot onward and never open can never invoke the lock operation:
the inner debounce branch demands the raw value differ from switchState, so
a lid already closed at boot does not lock the box, and boxLocked keeps its
boot value. -/
theorem c10_closed_lid_at_boot_never_locks (e : Nat → Nat)
    (bootNow now : Nat) (tr : List (Nat × Bool))
    (h : allRaw true tr = true) :
    lockCount (recoverOnBoot e bootNow) now tr = 0 ∧
      (runState (recoverOnBoot e bootNow) now tr).boxLocked =
        (recoverOnBoot e bootNow).boxLocked := by
  have hsw := recoverOnBoot_switchState e bootNow
  have hst := runCounts_stable tr (recoverOnBoot e bootNow) now true hsw h
  exact ⟨by rw [lockCount, hst.1], hst.2⟩

theorem c10_closed_lid_at_boot_never_locks_witness :
    lockCount (recoverOnBoot (fun _ => 0) 0) 0 [(2000, true), (4000, true)] = 0 ∧
      (runState (recoverOnBoot (fun _ => 0) 0) 0
          [(2000, true), (4000, true)]).boxLocked =
        (recoverOnBoot (fun _ => 0) 0).boxLocked :=
  c10_closed_lid_at_boot_never_locks (fun _ => 0) 0 0 _ (by decide)

/-! ## Claim C9: operator command interface -/

/-- Modelled from the spec: no serial command parsing exists in the source
sketch (the feature is listed in the sketch header but never implemented,
and spec section 1 excludes serial command parsing as an external
collaborator).  Following spec section 6, a command buffer holds a single
integer token: it parses iff it is nonempty and all characters are decimal
digits. -/
def parseToken (s : String) : Option Nat :=
  if !s.data.isEmpty && s.data.all Char.isDigit then
    some (s.data.foldl (fun a c => 10 * a + (c.toNat - 48)) 0)
  else none

/-- Modelled from the spec: processing one operator command — a token in
the valid range 1-99 sets configuredLockMinutes and confirms (true);
out-of-range or non-numeric input is rejected (false) and the configured
value is unchanged. -/
def processCommand (cfg : Nat) (input : String) : Nat × Bool :=
  match parseToken input with
  | some n => if 1 ≤ n ∧ n ≤ 99 then (n, true) else (cfg, false)
  | none => (cfg, false)

/-- Claim C9: the operator command interface accepts a single integer token
per command; every token in [1,99] sets configuredLockMinutes to it and
confirms; every out-of-range or non-numeric input is rejected and leaves
configuredLockMinutes unchanged; in particular the input "150" is
rejected with no state change. -/
theorem c9_command_interface :
    (∀ (cfg : Nat) (s : String) (n : Nat), parseToken s = some n →
        1 ≤ n → n ≤ 99 → processCommand cfg s = (n, true)) ∧
      (∀ (cfg : Nat) (s : String),
        (parseToken s = none ∨
          ∃ n, parseToken s = some n ∧ (n < 1 ∨ 99 < n)) →
        processCommand cfg s = (cfg, false)) ∧
      (∀ cfg : Nat, processCommand cfg "150" = (cfg, false)) := by
  refine ⟨?_, ?_, ?_⟩
  · intro cfg s n hp h1 h2
    simp only [processCommand, hp]
    rw [if_pos ⟨h1, h2⟩]
  · intro cfg s h
    rcases h with h | ⟨n, hp, hr⟩
    · simp [processCommand, h]
    · simp only [processCommand, hp]
      rw [if_neg (by omega)]
  · intro cfg
    have hp : parseToken "150" = some 150 := by decide
    simp only [processCommand, hp]
    rw [if_neg (by omega)]

theorem c9_command_interface_witness :
    parseToken "42" = some 42 ∧
      processCommand 60 "42" = (42, true) ∧
      processCommand 60 "150" = (60, false) :=
  ⟨by decide,
    c9_command_interface.1 60 "42" 42 (by decide) (by decide) (by decide),
    c9_command_interface.2.2 60⟩
